import Mathlib

/-!
Verification development for the mev-sol-bot trading engine.

The Python source is shallowly embedded: float arithmetic becomes exact ℚ
arithmetic, Python dicts become insertion-ordered association lists
(`List (String × α)` with the dict-update semantics of `dictInsert`),
`Optional[float]` price fetches become `Option ℚ`, and the stubbed
network/DEX collaborators (`_execute_buy`, `_execute_sell`, the four safety
predicates, the analyzer sub-estimators) become explicit boolean / numeric
parameters, since the control flow of the embedded functions branches on
their results but their bodies are external collaborators.
-/

namespace MevBot

/-- Lookup in a Python-dict modelled as an association list (first match). -/
def lookupKey {α : Type} : List (String × α) → String → Option α
  | [], _ => none
  | kv :: rest, k => if kv.1 = k then some kv.2 else lookupKey rest k

/-- Python dict assignment `d[k] = v`: replace in place if the key exists
(keeping its position), otherwise append at the end. -/
def dictInsert {α : Type} : List (String × α) → String → α → List (String × α)
  | [], k, v => [(k, v)]
  | kv :: rest, k, v => if kv.1 = k then (k, v) :: rest else kv :: dictInsert rest k v

/-- Python `del d[k]` on a dict (keys are unique, but removing every
occurrence is harmless and total). -/
def eraseKey {α : Type} (m : List (String × α)) (k : String) : List (String × α) :=
  m.filter (fun kv => decide (kv.1 ≠ k))

/-! ## strategies/risk_manager.py -/

/-- The `TokenPosition` dataclass of `strategies/risk_manager.py`. -/
structure TokenPosition where
  token_address : String
  entry_price : ℚ
  current_price : ℚ
  quantity : ℚ
  highest_price : ℚ
  entry_time : ℚ
deriving Repr, DecidableEq

/-- The threshold fields read from the environment in `RiskManager.__init__`. -/
structure RiskParams where
  stop_loss_threshold : ℚ
  trailing_stop_loss : ℚ
  max_holding_time : ℚ
  quick_loss_threshold : ℚ
deriving Repr, DecidableEq

/-- The default values of the four thresholds
(`STOP_LOSS_THRESHOLD=0.15`, `TRAILING_STOP_LOSS=0.10`,
`MAX_HOLDING_TIME=3600`, `QUICK_LOSS_THRESHOLD=0.05`). -/
def default_risk_params : RiskParams :=
  { stop_loss_threshold := 15/100
    trailing_stop_loss := 10/100
    max_holding_time := 3600
    quick_loss_threshold := 5/100 }

/-- `price_drop = (position.entry_price - position.current_price) / position.entry_price`. -/
def price_drop (p : TokenPosition) : ℚ :=
  (p.entry_price - p.current_price) / p.entry_price

/-- `drop_from_high = (position.highest_price - position.current_price) / position.highest_price`. -/
def drop_from_high (p : TokenPosition) : ℚ :=
  (p.highest_price - p.current_price) / p.highest_price

/-- `time_held = current_time - position.entry_time`. -/
def time_held (p : TokenPosition) (now : ℚ) : ℚ := now - p.entry_time

/-- `RiskManager._check_stop_loss_conditions`: the sequence of four early
returns, each firing the emergency sell with its reason string; `none`
means no trigger fired. -/
def check_stop_loss_conditions (rm : RiskParams) (p : TokenPosition) (now : ℚ) :
    Option String :=
  if time_held p now ≤ 60 ∧ price_drop p ≥ rm.quick_loss_threshold then
    some "Quick Loss Triggered"
  else if price_drop p ≥ rm.stop_loss_threshold then
    some "Stop Loss Triggered"
  else if drop_from_high p ≥ rm.trailing_stop_loss then
    some "Trailing Stop Loss Triggered"
  else if time_held p now ≥ rm.max_holding_time then
    some "Max Holding Time Reached"
  else
    none

/-- The price-update step of `RiskManager._check_positions`: a `none`
fetch result skips the position (`continue`); otherwise `current_price`
is set and `highest_price` is raised when the new price is a new high. -/
def update_on_price (p : TokenPosition) (newPrice : Option ℚ) : TokenPosition :=
  match newPrice with
  | none => p
  | some np =>
    let p1 : TokenPosition := { p with current_price := np }
    if np > p1.highest_price then { p1 with highest_price := np } else p1

/-- Repeated iterations of the exit-evaluation loop restricted to their
price-update effect on one position. -/
def apply_price_stream (p : TokenPosition) (prices : List (Option ℚ)) : TokenPosition :=
  prices.foldl update_on_price p

/-- The reason recorded (logged) by `_execute_emergency_sell` for a token. -/
structure SellRecord where
  token : String
  reason : String
deriving Repr, DecidableEq

/-- `RiskManager._execute_emergency_sell`: the sell execution itself is an
external collaborator (its outcome `sellOk` is never inspected by the
source); the position is deleted from the tracking dict unconditionally and
the trigger reason is logged. -/
def execute_emergency_sell (sellOk : Bool)
    (positions : List (String × TokenPosition)) (token : String) (reason : String) :
    List (String × TokenPosition) × SellRecord :=
  let _ := sellOk
  (eraseKey positions token, { token := token, reason := reason })

/-- One position's iteration of `RiskManager._check_positions`: look the
position up, apply the fetched price (skipping on an unavailable price),
then run `_check_stop_loss_conditions`, firing `_execute_emergency_sell`
on the first matching trigger. Returns the new positions dict and the
emergency-sell record if one fired. -/
def check_position_step (rm : RiskParams) (sellOk : Bool)
    (positions : List (String × TokenPosition)) (token : String)
    (now : ℚ) (newPrice : Option ℚ) :
    List (String × TokenPosition) × Option SellRecord :=
  match lookupKey positions token with
  | none => (positions, none)
  | some pos =>
    match newPrice with
    | none => (positions, none)
    | some np =>
      let pos1 := update_on_price pos (some np)
      let positions1 := dictInsert positions token pos1
      match check_stop_loss_conditions rm pos1 now with
      | some reason =>
        let res := execute_emergency_sell sellOk positions1 token reason
        (res.1, some res.2)
      | none => (positions1, none)

/-! ## trading/manual_trader.py -/

/-- The `TradeConfig` dataclass (a pending limit order). -/
structure TradeConfig where
  token_address : String
  amount : ℚ
  price : ℚ
  take_profit : Option ℚ
  stop_loss : Option ℚ
deriving Repr, DecidableEq

/-- The `Position` dataclass of `trading/manual_trader.py`. -/
structure Position where
  token_address : String
  entry_price : ℚ
  amount : ℚ
  take_profit : Option ℚ
  stop_loss : Option ℚ
  order_type : String
deriving Repr, DecidableEq

/-- The mutable maps of `ManualTrader`. -/
structure TraderState where
  active_positions : List (String × Position)
  pending_orders : List (String × TradeConfig)
deriving Repr, DecidableEq

/-- Python truthiness of an `Optional[float]` price: `None` and `0.0` are
both falsy (`if not current_price`). -/
def truthy : Option ℚ → Bool
  | none => false
  | some x => decide (x ≠ 0)

/-- `ManualTrader.market_buy`: fetch the current price and fail on a falsy
result; the MEV-protection steps (sandwich adjustment, backrun
optimization, Flashbots submission) only shape the transaction payload and
are folded, together with `_execute_buy`, into the execution outcome
`buyOk`; on success the `Position` is registered at the observed price. -/
def market_buy (buyOk : Bool) (s : TraderState) (token : String) (amount : ℚ)
    (tp sl : Option ℚ) (priceRes : Option ℚ) : TraderState × Bool :=
  if truthy priceRes = false then (s, false)
  else
    let current_price := priceRes.getD 0
    if buyOk then
      let newPos : Position :=
        { token_address := token, entry_price := current_price, amount := amount,
          take_profit := tp, stop_loss := sl, order_type := "market" }
      ({ s with active_positions := dictInsert s.active_positions token newPos }, true)
    else (s, false)

/-- `ManualTrader.limit_buy`: register the pending order (the fill-poll
task itself is `monitor_limit_order` below). -/
def limit_buy (s : TraderState) (token : String) (amount price : ℚ)
    (tp sl : Option ℚ) : TraderState :=
  let order : TradeConfig :=
    { token_address := token, amount := amount, price := price,
      take_profit := tp, stop_loss := sl }
  { s with pending_orders := dictInsert s.pending_orders token order }

/-- The `Position` built inside `_monitor_limit_order` when a limit order
fills: every field, in particular `entry_price`, is taken from the stored
order (`entry_price=order.price`). -/
def fill_position_of (token : String) (order : TradeConfig) : Position :=
  { token_address := token, entry_price := order.price, amount := order.amount,
    take_profit := order.take_profit, stop_loss := order.stop_loss,
    order_type := "limit" }

/-- The first mutation of a successful fill in `_monitor_limit_order`:
`self.active_positions[token_address] = Position(...)`. -/
def add_fill_position (s : TraderState) (token : String) (order : TradeConfig) :
    TraderState :=
  { s with active_positions :=
      dictInsert s.active_positions token (fill_position_of token order) }

/-- The second mutation of a successful fill:
`del self.pending_orders[token_address]`. -/
def remove_pending (s : TraderState) (token : String) : TraderState :=
  { s with pending_orders := eraseKey s.pending_orders token }

/-- One iteration of `_monitor_limit_order`'s polling loop: if the order is
gone the loop ends; otherwise a truthy observed price at or below the
order's limit price triggers `_execute_buy(token, order.amount, order.price)`
(outcome `buyOk`); on success the `Position` is created and then the
pending order is removed, and the loop breaks. Returns the state, whether
the loop terminates, and the price passed to `_execute_buy` if a buy ran. -/
def monitor_step (buyOk : Bool) (s : TraderState) (token : String)
    (priceRes : Option ℚ) : TraderState × Bool × Option ℚ :=
  match lookupKey s.pending_orders token with
  | none => (s, true, none)
  | some order =>
    if truthy priceRes ∧ priceRes.getD 0 ≤ order.price then
      if buyOk then
        (remove_pending (add_fill_position s token order) token, true, some order.price)
      else (s, false, some order.price)
    else (s, false, none)

/-- `_monitor_limit_order` run over a finite stream of observed prices:
iterate `monitor_step` until it signals termination or the stream ends.
Also returns the price of the executed fill, when one happened. -/
def monitor_limit_order (buyOk : Bool) (s : TraderState) (token : String) :
    List (Option ℚ) → TraderState × Option ℚ
  | [] => (s, none)
  | p :: ps =>
    let step := monitor_step buyOk s token p
    if step.2.1 then (step.1, step.2.2)
    else monitor_limit_order buyOk step.1 token ps

/-- `ManualTrader.market_sell`: fail if no active position; compute the
sell amount by Python truthiness (`amount if amount else position.amount`);
fail on a falsy price; on a successful `_execute_sell` (outcome `sellOk`)
delete the position when `amount is None or amount >= position.amount`,
otherwise reduce it in place. Returns the state and `some soldAmount` on
success, `none` on failure. -/
def market_sell (sellOk : Bool) (s : TraderState) (token : String)
    (amount : Option ℚ) (priceRes : Option ℚ) : TraderState × Option ℚ :=
  match lookupKey s.active_positions token with
  | none => (s, none)
  | some pos =>
    let sell_amount :=
      match amount with
      | some a => if a ≠ 0 then a else pos.amount
      | none => pos.amount
    if truthy priceRes = false then (s, none)
    else if sellOk then
      match amount with
      | none =>
        ({ s with active_positions := eraseKey s.active_positions token }, some sell_amount)
      | some a =>
        if a ≥ pos.amount then
          ({ s with active_positions := eraseKey s.active_positions token }, some sell_amount)
        else
          let reduced : Position := { pos with amount := pos.amount - a }
          ({ s with active_positions := dictInsert s.active_positions token reduced },
            some sell_amount)
    else (s, none)

/-! ## strategies/advanced_strategies.py — EnhancedMempoolMonitor -/

/-- One entry of `volume_history[token]`: a timestamp/volume pair. -/
structure VolumeSample where
  timestamp : ℚ
  volume : ℚ
deriving Repr, DecidableEq

/-- The result of `_extract_token_info`. -/
structure TokenInfo where
  addresses : List String
  amounts : List ℚ
  volume_usd : ℚ
deriving Repr, DecidableEq

/-- The dict returned by `_analyze_market_conditions`, restricted to the
`favorable` key, the only one the pipeline consumes (the others are
informational). -/
structure MarketAnalysis where
  favorable : Bool
deriving Repr, DecidableEq

/-- The scalar fields of an emitted opportunity dict. -/
structure Opportunity where
  type : String
  tokens : List String
  volume : ℚ
  estimated_profit : ℚ
  market_conditions : MarketAnalysis
  priority_score : ℚ
deriving Repr, DecidableEq

/-- The environment-derived analyzer parameters (`VOLUME_TIMEFRAME=300`,
`MIN_TRADE_VOLUME=1000`, `LARGE_TRADE_THRESHOLD=5000`,
`MIN_PROFIT_THRESHOLD=0.05`). -/
structure AnalyzerParams where
  volume_window : ℚ
  min_volume : ℚ
  large_trade_threshold : ℚ
  min_profit_threshold : ℚ
deriving Repr, DecidableEq

/-- The default analyzer parameters. -/
def default_analyzer_params : AnalyzerParams :=
  { volume_window := 300, min_volume := 1000,
    large_trade_threshold := 5000, min_profit_threshold := 5/100 }

/-- Results of the pluggable estimator stubs of
`analyze_transaction_intent` (`_is_valid_transaction`,
`_extract_token_info`, `_estimate_profit_potential`, `_determine_tx_type`,
`_calculate_priority_score`), whose bodies are external collaborators. -/
structure AnalyzerStubs where
  is_valid_transaction : Bool
  token_info : Option TokenInfo
  estimated_profit : ℚ
  tx_type : String
  priority_score : ℚ

/-- Sum of the `volume` fields of a sample list. -/
def sum_volumes (l : List VolumeSample) : ℚ :=
  l.foldl (fun acc v => acc + v.volume) 0

/-- The pruning pass of `_update_volume_history`: every token's list keeps
only samples with `timestamp > cutoff`. -/
def prune_history (cutoff : ℚ) (vh : List (String × List VolumeSample)) :
    List (String × List VolumeSample) :=
  vh.map (fun kv => (kv.1, kv.2.filter (fun v => decide (v.timestamp > cutoff))))

/-- The append pass of `_update_volume_history` for one (address, amount)
pair: create the token's list if absent, then append the new sample. -/
def append_sample (vh : List (String × List VolumeSample)) (addr : String)
    (s : VolumeSample) : List (String × List VolumeSample) :=
  match lookupKey vh addr with
  | some h => dictInsert vh addr (h ++ [s])
  | none => vh ++ [(addr, [s])]

/-- `_update_volume_history`: prune all lists to the rolling window, then
append one sample per zipped (address, amount) pair at the current time. -/
def update_volume_history (window now : ℚ)
    (vh : List (String × List VolumeSample)) (info : TokenInfo) :
    List (String × List VolumeSample) :=
  (info.addresses.zip info.amounts).foldl
    (fun acc p => append_sample acc p.1 ⟨now, p.2⟩)
    (prune_history (now - window) vh)

/-- `_calculate_recent_volume`: sum of the stored (already pruned) samples,
`0.0` for an untracked token. -/
def calculate_recent_volume (vh : List (String × List VolumeSample))
    (addr : String) : ℚ :=
  sum_volumes ((lookupKey vh addr).getD [])

/-- `_is_volume_increasing`: `False` for an untracked token or fewer than
two samples; otherwise split at `mid = len // 2` and compare the sums of
`history[mid:]` and `history[:mid]`. -/
def is_volume_increasing (vh : List (String × List VolumeSample))
    (addr : String) : Bool :=
  match lookupKey vh addr with
  | none => false
  | some history =>
    if history.length < 2 then false
    else
      let mid := history.length / 2
      decide (sum_volumes (history.drop mid) > sum_volumes (history.take mid))

/-- `_analyze_market_conditions`: indexes `token_info['addresses'][0]`
(an empty address list raises, and the handler returns
`{'favorable': False}`); favorable iff the recent volume strictly exceeds
`min_volume` and the volume trend is increasing. -/
def analyze_market_conditions (minVolume : ℚ)
    (vh : List (String × List VolumeSample)) (info : TokenInfo) :
    MarketAnalysis :=
  match info.addresses with
  | [] => { favorable := false }
  | addr :: _ =>
    { favorable :=
        decide (calculate_recent_volume vh addr > minVolume) && is_volume_increasing vh addr }

/-- `EnhancedMempoolMonitor.analyze_transaction_intent`: the chain of early
`return None` guards (validity, extractable token info, whitelist, large
trade, profit threshold, market favorability), then the emitted
opportunity dict. -/
def analyze_transaction_intent (ap : AnalyzerParams) (whitelisted : String → Bool)
    (vh : List (String × List VolumeSample)) (now : ℚ) (stubs : AnalyzerStubs) :
    Option Opportunity :=
  if stubs.is_valid_transaction = false then none
  else
    match stubs.token_info with
    | none => none
    | some info =>
      if (info.addresses.all whitelisted) = false then none
      else
        let vh1 := update_volume_history ap.volume_window now vh info
        if ¬ (info.volume_usd ≥ ap.large_trade_threshold) then none
        else if stubs.estimated_profit < ap.min_profit_threshold then none
        else
          let ma := analyze_market_conditions ap.min_volume vh1 info
          if ma.favorable = false then none
          else
            some { type := stubs.tx_type, tokens := info.addresses,
                   volume := info.volume_usd,
                   estimated_profit := stubs.estimated_profit,
                   market_conditions := ma,
                   priority_score := stubs.priority_score }

/-! ## strategies/advanced_strategies.py — AdaptiveStrategyManager -/

/-- The three pluggable sub-scorers of `_score_strategy`
(`_get_historical_performance`, `_evaluate_market_conditions`,
`_score_opportunity_fit`), whose bodies are external collaborators keyed
by the strategy name. -/
structure ScoringEnv where
  historical : String → ℚ
  market_fit : String → ℚ
  opportunity_fit : String → ℚ

/-- `AdaptiveStrategyManager._score_strategy`:
`(hist_score * 0.3) + (market_score * 0.3) + (opp_score * 0.4)` for the
current opportunity and market conditions (both already fixed inside the
sub-scorers of `env`). -/
def score_strategy (env : ScoringEnv) (name : String) : ℚ :=
  env.historical name * (3/10) + env.market_fit name * (3/10) +
    env.opportunity_fit name * (4/10)

/-- Python's `max(items, key=lambda x: x[1])` on a nonempty list: fold
keeping the first element on ties, replacing only on a strictly larger
score. -/
def max_by_score (x : String × ℚ) (xs : List (String × ℚ)) : String × ℚ :=
  xs.foldl (fun b y => if y.2 > b.2 then y else b) x

/-- `AdaptiveStrategyManager.select_best_strategy`: score every registered
strategy, return `None` when none are registered, otherwise take the
maximum-scoring entry and return its name only when its score is strictly
positive. -/
def select_best_strategy (env : ScoringEnv) (strategies : List String) :
    Option String :=
  let scores := strategies.map (fun n => (n, score_strategy env n))
  match scores with
  | [] => none
  | x :: xs =>
    let best := max_by_score x xs
    if best.2 > 0 then some best.1 else none

/-! ## strategies/advanced_strategies.py — RiskManager.check_execution_safety -/

/-- `RiskManager.check_execution_safety`: the four safety predicates
(`_check_price_impact`, `_check_liquidity_conditions`,
`_check_competition_level`, `_check_network_conditions`) are external
collaborators that either return a boolean or raise; `asyncio.gather`
propagates any raised error to the `except` handler, which returns
`False`; otherwise the result is `all(checks)`. -/
def check_execution_safety (c1 c2 c3 c4 : Except String Bool) : Bool :=
  match c1, c2, c3, c4 with
  | .ok b1, .ok b2, .ok b3, .ok b4 => b1 && b2 && b3 && b4
  | _, _, _, _ => false

/-! ## strategies/advanced_strategies.py — TokenWhitelist and its JSON config -/

/-- The `TokenConfig` dataclass. -/
structure TokenConfig where
  address : String
  symbol : String
  name : String
  decimals : Int
  min_liquidity : ℚ
  enabled : Bool
deriving Repr, DecidableEq

/-- The `DexInfo` dataclass (an entry of `self.dexes`). -/
structure DexInfo where
  name : String
  enabled : Bool
deriving Repr, DecidableEq

/-- The `DexConfig` dataclass (a per-pair, per-DEX pool reference). -/
structure DexConfig where
  pool_address : String
  enabled : Bool
deriving Repr, DecidableEq

/-- The `PairConfig` dataclass. -/
structure PairConfig where
  dexes : List (String × DexConfig)
  min_trade_size : ℚ
  max_trade_size : ℚ
  enabled : Bool
deriving Repr, DecidableEq

/-- The JSON values `json.dump`/`json.load` exchange for this config:
Python ints and floats round-trip losslessly and stay distinguishable, so
they get separate constructors; objects are insertion-ordered key/value
lists, as Python dicts are. -/
inductive Json where
  | str : String → Json
  | int : Int → Json
  | num : ℚ → Json
  | bool : Bool → Json
  | obj : List (String × Json) → Json

/-- Field lookup in a JSON object (Python dict indexing / `.get`). -/
def jLookup : List (String × Json) → String → Option Json
  | [], _ => none
  | kv :: rest, k => if kv.1 = k then some kv.2 else jLookup rest k

/-- The in-memory state of a `TokenWhitelist`: its three dicts. -/
structure WhitelistState where
  tokens : List (String × TokenConfig)
  dexes : List (String × DexInfo)
  pairs : List (String × PairConfig)
deriving Repr, DecidableEq

/-- The state built by the `FileNotFoundError` branch of `load_config`:
no tokens, the two default DEXes, no pairs. -/
def whitelist_default_state : WhitelistState :=
  { tokens := []
    dexes := [("raydium", { name := "Raydium", enabled := true }),
              ("orca", { name := "Orca", enabled := true })]
    pairs := [] }

/-- Serialization of one token entry in `save_config`. -/
def save_token (t : TokenConfig) : Json :=
  .obj [("address", .str t.address), ("symbol", .str t.symbol),
        ("name", .str t.name), ("decimals", .int t.decimals),
        ("min_liquidity", .num t.min_liquidity), ("enabled", .bool t.enabled)]

/-- Deserialization of one token entry: `TokenConfig(**details)` in
`load_config` needs exactly the saved fields with their saved types. -/
def load_token (j : Json) : Option TokenConfig :=
  match j with
  | .obj fields =>
    match jLookup fields "address", jLookup fields "symbol", jLookup fields "name",
        jLookup fields "decimals", jLookup fields "min_liquidity",
        jLookup fields "enabled" with
    | some (.str a), some (.str s), some (.str n), some (.int d),
        some (.num ml), some (.bool e) =>
      some { address := a, symbol := s, name := n, decimals := d,
             min_liquidity := ml, enabled := e }
    | _, _, _, _, _, _ => none
  | _ => none

/-- Serialization of one DEX-registry entry in `save_config`. -/
def save_dex_info (d : DexInfo) : Json :=
  .obj [("name", .str d.name), ("enabled", .bool d.enabled)]

/-- Deserialization of one DEX-registry entry (`DexInfo(**details)`). -/
def load_dex_info (j : Json) : Option DexInfo :=
  match j with
  | .obj fields =>
    match jLookup fields "name", jLookup fields "enabled" with
    | some (.str n), some (.bool e) => some { name := n, enabled := e }
    | _, _ => none
  | _ => none

/-- Serialization of one per-pair DEX entry in `save_config`. -/
def save_dex_config (d : DexConfig) : Json :=
  .obj [("pool_address", .str d.pool_address), ("enabled", .bool d.enabled)]

/-- Deserialization of one per-pair DEX entry (`DexConfig(**details)`). -/
def load_dex_config (j : Json) : Option DexConfig :=
  match j with
  | .obj fields =>
    match jLookup fields "pool_address", jLookup fields "enabled" with
    | some (.str p), some (.bool e) => some { pool_address := p, enabled := e }
    | _, _ => none
  | _ => none

/-- The dict-comprehension serialization pattern of `save_config`: one
serialized value per entry, keyed the same way. -/
def save_entries {α : Type} (f : α → Json) (l : List (String × α)) :
    List (String × Json) :=
  l.map (fun kv => (kv.1, f kv.2))

/-- The dict-comprehension deserialization pattern of `load_config`: the
whole load fails if any entry fails. -/
def load_entries {α : Type} (g : Json → Option α) :
    List (String × Json) → Option (List (String × α))
  | [] => some []
  | kv :: rest =>
    match g kv.2, load_entries g rest with
    | some v, some vs => some ((kv.1, v) :: vs)
    | _, _ => none

/-- Serialization of one pair entry in `save_config`. -/
def save_pair (p : PairConfig) : Json :=
  .obj [("dexes", .obj (save_entries save_dex_config p.dexes)),
        ("min_trade_size", .num p.min_trade_size),
        ("max_trade_size", .num p.max_trade_size),
        ("enabled", .bool p.enabled)]

/-- Deserialization of one pair entry, rebuilding the nested DEX dict as
`load_config` does. -/
def load_pair (j : Json) : Option PairConfig :=
  match j with
  | .obj fields =>
    match jLookup fields "dexes", jLookup fields "min_trade_size",
        jLookup fields "max_trade_size", jLookup fields "enabled" with
    | some (.obj dfs), some (.num mn), some (.num mx), some (.bool e) =>
      match load_entries load_dex_config dfs with
      | some ds => some { dexes := ds, min_trade_size := mn,
                          max_trade_size := mx, enabled := e }
      | none => none
    | _, _, _, _ => none
  | _ => none

/-- `TokenWhitelist.save_config`: the JSON document with the three
top-level maps. -/
def save_config (st : WhitelistState) : Json :=
  .obj [("tokens", .obj (save_entries save_token st.tokens)),
        ("dexes", .obj (save_entries save_dex_info st.dexes)),
        ("pairs", .obj (save_entries save_pair st.pairs))]

/-- `TokenWhitelist.load_config` on a present file: each top-level map is
read with `.get(key, {})` and rebuilt entry by entry; a malformed entry
raises, modelled as `none`. -/
def load_config (j : Json) : Option WhitelistState :=
  match j with
  | .obj fields =>
    match (jLookup fields "tokens").getD (.obj []),
        (jLookup fields "dexes").getD (.obj []),
        (jLookup fields "pairs").getD (.obj []) with
    | .obj tfs, .obj dfs, .obj pfs =>
      match load_entries load_token tfs, load_entries load_dex_info dfs,
          load_entries load_pair pfs with
      | some ts, some ds, some ps => some { tokens := ts, dexes := ds, pairs := ps }
      | _, _, _ => none
    | _, _, _ => none
  | _ => none

/-- `TokenWhitelist.add_token`: insert (or overwrite) the symbol's entry
with `enabled=True` (the subsequent `save_config` call is the persistence
modelled by `save_config` above). -/
def add_token (st : WhitelistState) (symbol address name : String)
    (decimals : Int) (min_liquidity : ℚ) : WhitelistState :=
  let tc : TokenConfig :=
    { address := address, symbol := symbol, name := name,
      decimals := decimals, min_liquidity := min_liquidity, enabled := true }
  { st with tokens := dictInsert st.tokens symbol tc }

/-- `TokenWhitelist.add_pair`: raise (`.error`) unless both tokens are
whitelisted and every named DEX is known; otherwise register the
`"base/quote"` pair with per-DEX pool addresses, `enabled=True`, and the
default trade-size bounds 10.0 / 1000.0. -/
def add_pair (st : WhitelistState) (base quote : String)
    (dex_configs : List (String × String)) : Except String WhitelistState :=
  if (lookupKey st.tokens base).isNone ∨ (lookupKey st.tokens quote).isNone then
    .error "Both tokens must be whitelisted first"
  else if dex_configs.any (fun d => (lookupKey st.dexes d.1).isNone) then
    .error "Unknown DEX"
  else
    let pc : PairConfig :=
      { dexes := dex_configs.map (fun d => (d.1, { pool_address := d.2, enabled := true })),
        min_trade_size := 10, max_trade_size := 1000, enabled := true }
    .ok { st with pairs := dictInsert st.pairs (base ++ "/" ++ quote) pc }

/-! ## Helper lemmas on the dict model -/

theorem lookupKey_eraseKey_self {α : Type} (m : List (String × α)) (k : String) :
    lookupKey (eraseKey m k) k = none := by
  induction m with
  | nil => rfl
  | cons kv rest ih =>
    by_cases hk : kv.1 = k
    · simpa [eraseKey, hk] using ih
    · simpa [eraseKey, lookupKey, hk] using ih

theorem lookupKey_dictInsert_self {α : Type} (m : List (String × α)) (k : String) (v : α) :
    lookupKey (dictInsert m k v) k = some v := by
  induction m with
  | nil => simp [dictInsert, lookupKey]
  | cons kv rest ih =>
    by_cases hk : kv.1 = k
    · simp [dictInsert, hk, lookupKey]
    · simp [dictInsert, hk, lookupKey, ih]

/-! ## C1 -/

/-- C1: the exit-evaluation logic checks the four triggers in the fixed
priority order quick-loss, stop-loss, trailing-stop, max-hold; each fires
exactly when its condition holds and no earlier condition does; past 60s
held the quick-loss trigger can no longer fire; and in the Scenario C
configuration (entry 100, highest 130, current 116, trailing 0.10, stop
0.20) exactly the trailing-stop trigger fires. -/
theorem c1_exit_trigger_priority :
    (∀ (rm : RiskParams) (p : TokenPosition) (now : ℚ),
      0 < p.entry_price → 0 < p.highest_price →
      (check_stop_loss_conditions rm p now = some "Quick Loss Triggered" ↔
        (time_held p now ≤ 60 ∧ price_drop p ≥ rm.quick_loss_threshold)) ∧
      (check_stop_loss_conditions rm p now = some "Stop Loss Triggered" ↔
        (¬ (time_held p now ≤ 60 ∧ price_drop p ≥ rm.quick_loss_threshold) ∧
          price_drop p ≥ rm.stop_loss_threshold)) ∧
      (check_stop_loss_conditions rm p now = some "Trailing Stop Loss Triggered" ↔
        (¬ (time_held p now ≤ 60 ∧ price_drop p ≥ rm.quick_loss_threshold) ∧
          ¬ price_drop p ≥ rm.stop_loss_threshold ∧
          drop_from_high p ≥ rm.trailing_stop_loss)) ∧
      (check_stop_loss_conditions rm p now = some "Max Holding Time Reached" ↔
        (¬ (time_held p now ≤ 60 ∧ price_drop p ≥ rm.quick_loss_threshold) ∧
          ¬ price_drop p ≥ rm.stop_loss_threshold ∧
          ¬ drop_from_high p ≥ rm.trailing_stop_loss ∧
          time_held p now ≥ rm.max_holding_time)) ∧
      (check_stop_loss_conditions rm p now = none ↔
        (¬ (time_held p now ≤ 60 ∧ price_drop p ≥ rm.quick_loss_threshold) ∧
          ¬ price_drop p ≥ rm.stop_loss_threshold ∧
          ¬ drop_from_high p ≥ rm.trailing_stop_loss ∧
          ¬ time_held p now ≥ rm.max_holding_time)))
    ∧ (∀ (rm : RiskParams) (p : TokenPosition) (now : ℚ),
        60 < time_held p now →
        check_stop_loss_conditions rm p now ≠ some "Quick Loss Triggered")
    ∧ check_stop_loss_conditions
        { default_risk_params with stop_loss_threshold := 20/100 }
        { token_address := "tok", entry_price := 100, current_price := 116,
          quantity := 1, highest_price := 130, entry_time := 0 } 3000
        = some "Trailing Stop Loss Triggered" := by
  refine ⟨?_, ?_, ?_⟩
  · intro rm p now _ _
    unfold check_stop_loss_conditions
    split_ifs with h1 h2 h3 h4 <;> simp_all
  · intro rm p now hlate
    unfold check_stop_loss_conditions
    split_ifs with h1 h2 h3 h4 <;> simp_all
    exact absurd h1.1 (not_le.mpr hlate)
  · norm_num [check_stop_loss_conditions, price_drop, drop_from_high, time_held,
      default_risk_params]

/-- Witness for C1: Scenario B (entry 100, price 84, held 3000s) is past
the 60-second window, so the quick-loss trigger cannot be the one that
fires there. -/
theorem c1_exit_trigger_priority_witness :
    check_stop_loss_conditions default_risk_params
      { token_address := "tok", entry_price := 100, current_price := 84,
        quantity := 1, highest_price := 100, entry_time := 0 } 3000
      ≠ some "Quick Loss Triggered" :=
  c1_exit_trigger_priority.2.1 default_risk_params
    { token_address := "tok", entry_price := 100, current_price := 84,
      quantity := 1, highest_price := 100, entry_time := 0 } 3000 (by norm_num [time_held])

/-! ## C3 -/

/-- C3: whenever an exit trigger fires for a token, the position is
removed from tracking unconditionally — the whole step is independent of
the emergency-sell outcome — and the fired trigger's reason is recorded
with the token. -/
theorem c3_trigger_removes_position_unconditionally :
    (∀ (rm : RiskParams) (sellOk : Bool) (positions : List (String × TokenPosition))
        (token : String) (now : ℚ) (newPrice : Option ℚ) (rec : SellRecord),
      (check_position_step rm sellOk positions token now newPrice).2 = some rec →
      lookupKey (check_position_step rm sellOk positions token now newPrice).1 token = none
        ∧ rec.token = token)
    ∧ (∀ (rm : RiskParams) (positions : List (String × TokenPosition))
        (token : String) (now : ℚ) (newPrice : Option ℚ),
      check_position_step rm true positions token now newPrice =
        check_position_step rm false positions token now newPrice)
    ∧ (∀ (rm : RiskParams) (sellOk : Bool) (positions : List (String × TokenPosition))
        (token : String) (now : ℚ) (pos : TokenPosition) (np : ℚ),
      lookupKey positions token = some pos →
      (check_position_step rm sellOk positions token now (some np)).2 =
        (check_stop_loss_conditions rm (update_on_price pos (some np)) now).map
          (fun r => { token := token, reason := r })) := by
  refine ⟨?_, ?_, ?_⟩
  · intro rm sellOk positions token now newPrice rec hfired
    unfold check_position_step at *
    cases hpos : lookupKey positions token with
    | none => simp [hpos] at hfired
    | some pos =>
      cases newPrice with
      | none => simp [hpos] at hfired
      | some np =>
        simp only [hpos] at hfired ⊢
        cases htrig : check_stop_loss_conditions rm (update_on_price pos (some np)) now with
        | none => simp [htrig] at hfired
        | some reason =>
          simp only [htrig, execute_emergency_sell] at hfired ⊢
          refine ⟨lookupKey_eraseKey_self _ token, ?_⟩
          cases hfired
          rfl
  · intro rm positions token now newPrice
    unfold check_position_step
    cases lookupKey positions token with
    | none => rfl
    | some pos =>
      cases newPrice with
      | none => rfl
      | some np =>
        cases check_stop_loss_conditions rm (update_on_price pos (some np)) now <;> rfl
  · intro rm sellOk positions token now pos np hpos
    unfold check_position_step
    simp only [hpos]
    cases check_stop_loss_conditions rm (update_on_price pos (some np)) now <;>
      simp [execute_emergency_sell]

/-- Witness for C3: Scenario A (entry 100, price 94 at 30s held) fires the
quick-loss trigger; applying the theorem there shows the position is gone
and the reason was recorded. -/
theorem c3_trigger_removes_position_unconditionally_witness :
    lookupKey (check_position_step default_risk_params false
        [("tok", { token_address := "tok", entry_price := 100, current_price := 100,
                   quantity := 1, highest_price := 100, entry_time := 0 })]
        "tok" 30 (some 94)).1 "tok" = none
      ∧ SellRecord.token { token := "tok", reason := "Quick Loss Triggered" } = "tok" :=
  c3_trigger_removes_position_unconditionally.1 default_risk_params false
    [("tok", { token_address := "tok", entry_price := 100, current_price := 100,
               quantity := 1, highest_price := 100, entry_time := 0 })]
    "tok" 30 (some 94) { token := "tok", reason := "Quick Loss Triggered" }
    (by norm_num [check_position_step, lookupKey, update_on_price,
      check_stop_loss_conditions, price_drop, drop_from_high, time_held,
      default_risk_params, dictInsert, execute_emergency_sell])

/-! ## C4 -/

/-- C4: each price-fetching iteration sets the high-water mark to the
maximum of its previous value and the fetched price, so the high-water
mark is monotonically non-decreasing across any update sequence, and in
particular across a full `_check_positions` step while the position stays
tracked. -/
theorem c4_highest_price_monotone :
    (∀ (p : TokenPosition) (np : ℚ),
      (update_on_price p (some np)).highest_price = max p.highest_price np)
    ∧ (∀ (p : TokenPosition) (o : Option ℚ),
      p.highest_price ≤ (update_on_price p o).highest_price)
    ∧ (∀ (p : TokenPosition) (prices : List (Option ℚ)),
      p.highest_price ≤ (apply_price_stream p prices).highest_price)
    ∧ (∀ (rm : RiskParams) (sellOk : Bool) (positions : List (String × TokenPosition))
        (token : String) (now : ℚ) (newPrice : Option ℚ) (pos pos1 : TokenPosition),
      lookupKey positions token = some pos →
      lookupKey (check_position_step rm sellOk positions token now newPrice).1 token
        = some pos1 →
      pos.highest_price ≤ pos1.highest_price) := by
  have hmax : ∀ (p : TokenPosition) (np : ℚ),
      (update_on_price p (some np)).highest_price = max p.highest_price np := by
    intro p np
    unfold update_on_price
    by_cases h : np > p.highest_price
    · simp [h, max_eq_right (le_of_lt h)]
    · simp [h, max_eq_left (not_lt.mp h)]
  have hstep : ∀ (p : TokenPosition) (o : Option ℚ),
      p.highest_price ≤ (update_on_price p o).highest_price := by
    intro p o
    cases o with
    | none => exact le_refl _
    | some np => rw [hmax]; exact le_max_left _ _
  refine ⟨hmax, hstep, ?_, ?_⟩
  · intro p prices
    induction prices generalizing p with
    | nil => exact le_refl _
    | cons o rest ih =>
      exact le_trans (hstep p o) (ih (update_on_price p o))
  · intro rm sellOk positions token now newPrice pos pos1 hpos hpos1
    unfold check_position_step at hpos1
    cases newPrice with
    | none =>
      simp only [hpos] at hpos1
      have h := Option.some.inj hpos1
      subst h
      exact le_refl _
    | some np =>
      simp only [hpos] at hpos1
      cases htrig : check_stop_loss_conditions rm (update_on_price pos (some np)) now with
      | some reason =>
        rw [htrig] at hpos1
        simp only [execute_emergency_sell] at hpos1
        rw [lookupKey_eraseKey_self] at hpos1
        cases hpos1
      | none =>
        rw [htrig] at hpos1
        rw [lookupKey_dictInsert_self] at hpos1
        cases hpos1
        exact hstep pos (some np)

/-- Witness for C4: a concrete step (price rises from 100 to 120, no
trigger) keeps the position tracked with a non-decreased high-water mark. -/
theorem c4_highest_price_monotone_witness :
    TokenPosition.highest_price
      { token_address := "tok", entry_price := 100, current_price := 100,
        quantity := 1, highest_price := 100, entry_time := 0 } ≤
    TokenPosition.highest_price
      { token_address := "tok", entry_price := 100, current_price := 120,
        quantity := 1, highest_price := 120, entry_time := 0 } :=
  c4_highest_price_monotone.2.2.2 default_risk_params true
    [("tok", { token_address := "tok", entry_price := 100, current_price := 100,
               quantity := 1, highest_price := 100, entry_time := 0 })]
    "tok" 30 (some 120)
    { token_address := "tok", entry_price := 100, current_price := 100,
      quantity := 1, highest_price := 100, entry_time := 0 }
    { token_address := "tok", entry_price := 100, current_price := 120,
      quantity := 1, highest_price := 120, entry_time := 0 }
    (by simp [lookupKey])
    (by norm_num [check_position_step, lookupKey, update_on_price,
      check_stop_loss_conditions, price_drop, drop_from_high, time_held,
      default_risk_params, dictInsert])

/-! ## C2 -/

/-- C2 counterexample: for `limit_buy(amount=10, price=50)` and observed
price stream 60, 55, 49, the fill triggers at the observation 49, but the
buy is executed at the stored limit price and the created Position's
`entry_price` is 50 — not 49 as the claim states. -/
theorem c2_fill_price_counterexample :
    Option.map Position.entry_price
      (lookupKey (monitor_limit_order true
          (limit_buy { active_positions := [], pending_orders := [] } "TOK" 10 50 none none)
          "TOK" [some 60, some 55, some 49]).1.active_positions "TOK") = some 50
    ∧ ¬ Option.map Position.entry_price
      (lookupKey (monitor_limit_order true
          (limit_buy { active_positions := [], pending_orders := [] } "TOK" 10 50 none none)
          "TOK" [some 60, some 55, some 49]).1.active_positions "TOK") = some 49 := by
  constructor
  · rfl
  · intro h
    rw [show Option.map Position.entry_price
        (lookupKey (monitor_limit_order true
            (limit_buy { active_positions := [], pending_orders := [] } "TOK" 10 50 none none)
            "TOK" [some 60, some 55, some 49]).1.active_positions "TOK") = some 50 from rfl]
      at h
    have h50 := Option.some.inj h
    norm_num at h50

/-- C2 amended: when the fill-poll loop observes a truthy price at or
below the pending order's limit price and the buy succeeds, it creates
the Position (with `entry_price` equal to the order's limit price, not
the observed price) before removing the PendingOrder; on the Scenario D
stream 60, 55, 49 the fill triggers at the observation 49, executes at
the limit price 50, and leaves a Position with `entry_price = 50`. -/
theorem c2_limit_fill_amended :
    (∀ (buyOk : Bool) (s : TraderState) (token : String) (order : TradeConfig) (p : ℚ),
      lookupKey s.pending_orders token = some order →
      p ≠ 0 → p ≤ order.price → buyOk = true →
      lookupKey (add_fill_position s token order).active_positions token =
          some (fill_position_of token order)
        ∧ lookupKey (add_fill_position s token order).pending_orders token = some order
        ∧ monitor_step buyOk s token (some p) =
            (remove_pending (add_fill_position s token order) token, true, some order.price)
        ∧ lookupKey
            (remove_pending (add_fill_position s token order) token).pending_orders token
            = none
        ∧ (fill_position_of token order).entry_price = order.price)
    ∧ (monitor_limit_order true
          (limit_buy { active_positions := [], pending_orders := [] } "TOK" 10 50 none none)
          "TOK" [some 60, some 55, some 49]).2 = some 50
    ∧ lookupKey (monitor_limit_order true
          (limit_buy { active_positions := [], pending_orders := [] } "TOK" 10 50 none none)
          "TOK" [some 60, some 55, some 49]).1.pending_orders "TOK" = none := by
  refine ⟨?_, rfl, rfl⟩
  intro buyOk s token order p horder hp hle hbuy
  subst hbuy
  refine ⟨?_, ?_, ?_, ?_, rfl⟩
  · exact lookupKey_dictInsert_self _ _ _
  · exact horder
  · unfold monitor_step
    rw [horder]
    simp only [truthy, Option.getD]
    rw [if_pos ⟨by simp [hp], hle⟩]
    simp
  · exact lookupKey_eraseKey_self _ _

/-- Witness for C2's amended theorem at the Scenario D fill step. -/
theorem c2_limit_fill_amended_witness :
    lookupKey (add_fill_position
        { active_positions := [],
          pending_orders := [("TOK", { token_address := "TOK", amount := 10, price := 50,
                                       take_profit := none, stop_loss := none })] }
        "TOK"
        { token_address := "TOK", amount := 10, price := 50,
          take_profit := none, stop_loss := none }).active_positions "TOK" =
      some (fill_position_of "TOK"
        { token_address := "TOK", amount := 10, price := 50,
          take_profit := none, stop_loss := none })
    ∧ lookupKey (add_fill_position
        { active_positions := [],
          pending_orders := [("TOK", { token_address := "TOK", amount := 10, price := 50,
                                       take_profit := none, stop_loss := none })] }
        "TOK"
        { token_address := "TOK", amount := 10, price := 50,
          take_profit := none, stop_loss := none }).pending_orders "TOK" =
      some { token_address := "TOK", amount := 10, price := 50,
             take_profit := none, stop_loss := none }
    ∧ monitor_step true
        { active_positions := [],
          pending_orders := [("TOK", { token_address := "TOK", amount := 10, price := 50,
                                       take_profit := none, stop_loss := none })] }
        "TOK" (some 49) =
      (remove_pending (add_fill_position
          { active_positions := [],
            pending_orders := [("TOK", { token_address := "TOK", amount := 10, price := 50,
                                         take_profit := none, stop_loss := none })] }
          "TOK"
          { token_address := "TOK", amount := 10, price := 50,
            take_profit := none, stop_loss := none }) "TOK", true, some 50)
    ∧ lookupKey (remove_pending (add_fill_position
          { active_positions := [],
            pending_orders := [("TOK", { token_address := "TOK", amount := 10, price := 50,
                                         take_profit := none, stop_loss := none })] }
          "TOK"
          { token_address := "TOK", amount := 10, price := 50,
            take_profit := none, stop_loss := none }) "TOK").pending_orders "TOK" = none
    ∧ (fill_position_of "TOK"
        { token_address := "TOK", amount := 10, price := 50,
          take_profit := none, stop_loss := none }).entry_price = 50 :=
  c2_limit_fill_amended.1 true
    { active_positions := [],
      pending_orders := [("TOK", { token_address := "TOK", amount := 10, price := 50,
                                   take_profit := none, stop_loss := none })] }
    "TOK"
    { token_address := "TOK", amount := 10, price := 50,
      take_profit := none, stop_loss := none }
    49 (by simp [lookupKey]) (by norm_num) (by norm_num) rfl

/-! ## C5 -/

/-- C5: `market_sell` fails without touching state when no open position
exists; on a successful sell with no amount the full remaining quantity
is sold and the position removed; with an amount at least the remaining
quantity the position is removed; with a positive amount strictly below
the remaining quantity the position's quantity is reduced by it and the
position stays open. -/
theorem c5_market_sell_cases :
    (∀ (sellOk : Bool) (s : TraderState) (token : String)
        (amount priceRes : Option ℚ),
      lookupKey s.active_positions token = none →
      market_sell sellOk s token amount priceRes = (s, none))
    ∧ (∀ (s : TraderState) (token : String) (pos : Position) (priceRes : Option ℚ),
      lookupKey s.active_positions token = some pos →
      truthy priceRes = true →
      market_sell true s token none priceRes =
        ({ s with active_positions := eraseKey s.active_positions token }, some pos.amount))
    ∧ (∀ (s : TraderState) (token : String) (pos : Position) (a : ℚ) (priceRes : Option ℚ),
      lookupKey s.active_positions token = some pos →
      truthy priceRes = true → 0 < pos.amount → a ≥ pos.amount →
      market_sell true s token (some a) priceRes =
        ({ s with active_positions := eraseKey s.active_positions token }, some a))
    ∧ (∀ (s : TraderState) (token : String) (pos : Position) (a : ℚ) (priceRes : Option ℚ),
      lookupKey s.active_positions token = some pos →
      truthy priceRes = true → 0 < a → a < pos.amount →
      (market_sell true s token (some a) priceRes).2 = some a
        ∧ lookupKey (market_sell true s token (some a) priceRes).1.active_positions token =
            some { pos with amount := pos.amount - a }
        ∧ (market_sell true s token (some a) priceRes).1.pending_orders
            = s.pending_orders) := by
  refine ⟨?_, ?_, ?_, ?_⟩
  · intro sellOk s token amount priceRes hnone
    unfold market_sell
    rw [hnone]
  · intro s token pos priceRes hpos hpr
    unfold market_sell
    rw [hpos]
    simp [hpr]
  · intro s token pos a priceRes hpos hpr hq hge
    have ha : a ≠ 0 := ne_of_gt (lt_of_lt_of_le hq hge)
    unfold market_sell
    rw [hpos]
    simp [hpr, ha, hge]
  · intro s token pos a priceRes hpos hpr hapos hlt
    have ha : a ≠ 0 := ne_of_gt hapos
    have hnge : ¬ a ≥ pos.amount := not_le.mpr hlt
    unfold market_sell
    rw [hpos]
    simp [hpr, ha, hnge, lookupKey_dictInsert_self]

/-- Witness for C5: Scenario E — selling with no amount on a position of
quantity 10 removes the position entirely. -/
theorem c5_market_sell_cases_witness :
    market_sell true
      { active_positions := [("TOK", { token_address := "TOK", entry_price := 100, amount := 10, take_profit := none, stop_loss := none, order_type := "market" })],
        pending_orders := [] }
      "TOK" none (some 2) =
      ({ active_positions := eraseKey [("TOK", { token_address := "TOK", entry_price := 100, amount := 10, take_profit := none, stop_loss := none, order_type := "market" })] "TOK",
         pending_orders := [] }, some 10) :=
  c5_market_sell_cases.2.1
    { active_positions := [("TOK", { token_address := "TOK", entry_price := 100, amount := 10, take_profit := none, stop_loss := none, order_type := "market" })],
      pending_orders := [] }
    "TOK"
    { token_address := "TOK", entry_price := 100, amount := 10,
      take_profit := none, stop_loss := none, order_type := "market" }
    (some 2) (by simp [lookupKey]) (by norm_num [truthy])

/-! ## C10 -/

/-- C10: a fetched price of exactly 0 is indistinguishable from an
unavailable price in `market_buy` and `market_sell`: both return failure
and leave all positions untouched. -/
theorem c10_zero_price_like_missing :
    (∀ (buyOk : Bool) (s : TraderState) (token : String) (amount : ℚ)
        (tp sl : Option ℚ),
      market_buy buyOk s token amount tp sl (some 0) =
        market_buy buyOk s token amount tp sl none
      ∧ market_buy buyOk s token amount tp sl (some 0) = (s, false))
    ∧ (∀ (sellOk : Bool) (s : TraderState) (token : String) (amount : Option ℚ),
      market_sell sellOk s token amount (some 0) =
        market_sell sellOk s token amount none
      ∧ market_sell sellOk s token amount (some 0) = (s, none)) := by
  constructor
  · intro buyOk s token amount tp sl
    constructor <;> simp [market_buy, truthy]
  · intro sellOk s token amount
    have h0 : truthy (some 0) = false := by simp [truthy]
    have hn : truthy (none : Option ℚ) = false := rfl
    constructor <;>
      · unfold market_sell
        cases lookupKey s.active_positions token with
        | none => rfl
        | some pos => simp [h0, hn]

/-! ## C6 -/

theorem is_volume_increasing_iff (vh : List (String × List VolumeSample)) (addr : String) :
    is_volume_increasing vh addr = true ↔
      (2 ≤ ((lookupKey vh addr).getD []).length ∧
        sum_volumes (((lookupKey vh addr).getD []).drop
            (((lookupKey vh addr).getD []).length / 2)) >
          sum_volumes (((lookupKey vh addr).getD []).take
            (((lookupKey vh addr).getD []).length / 2))) := by
  unfold is_volume_increasing
  cases hlk : lookupKey vh addr with
  | none => simp
  | some history =>
    simp only [Option.getD_some]
    by_cases hlen : history.length < 2
    · rw [if_pos hlen]
      simp only [Bool.false_eq_true, false_iff]
      rintro ⟨h2, -⟩
      omega
    · rw [if_neg hlen]
      simp only [decide_eq_true_eq]
      constructor
      · intro h
        exact ⟨by omega, h⟩
      · intro h
        exact h.2

/-- C6 counterexample: a volume history holding a single sample of volume
1500 has windowed volume above the 1000 default and, under the source's
own half-split (`mid = len // 2 = 0`), a second-half sum (1500) strictly
above the first-half sum (0) — so the claimed iff-condition holds — yet
`_analyze_market_conditions` reports the market as unfavorable, because
`_is_volume_increasing` additionally requires at least two samples. -/
theorem c6_favorability_counterexample :
    (analyze_market_conditions 1000
        [("tok", [{ timestamp := 0, volume := 1500 }])]
        { addresses := ["tok"], amounts := [1500], volume_usd := 5000 }).favorable = false
    ∧ calculate_recent_volume [("tok", [{ timestamp := 0, volume := 1500 }])] "tok" > 1000
    ∧ sum_volumes (List.drop ([({ timestamp := 0, volume := 1500 } : VolumeSample)].length / 2)
          [({ timestamp := 0, volume := 1500 } : VolumeSample)]) >
        sum_volumes (List.take ([({ timestamp := 0, volume := 1500 } : VolumeSample)].length / 2)
          [({ timestamp := 0, volume := 1500 } : VolumeSample)]) := by
  refine ⟨?_, ?_, ?_⟩
  · norm_num [analyze_market_conditions, is_volume_increasing, lookupKey]
  · norm_num [calculate_recent_volume, sum_volumes, lookupKey]
  · norm_num [sum_volumes]

/-- C6 amended: the market conditions of an analyzed transaction are
favorable iff the first token's windowed volume strictly exceeds
`min_volume` (default 1000) AND the history holds at least two samples
AND the volume summed over the second half of the sample list (split at
`len // 2`) strictly exceeds the volume summed over the first half; any
transaction whose market conditions are unfavorable is rejected with no
emitted opportunity. -/
theorem c6_market_conditions_amended :
    (∀ (minVol : ℚ) (vh : List (String × List VolumeSample)) (info : TokenInfo)
        (addr : String) (rest : List String),
      info.addresses = addr :: rest →
      ((analyze_market_conditions minVol vh info).favorable = true ↔
        (calculate_recent_volume vh addr > minVol ∧
          2 ≤ ((lookupKey vh addr).getD []).length ∧
          sum_volumes (((lookupKey vh addr).getD []).drop
              (((lookupKey vh addr).getD []).length / 2)) >
            sum_volumes (((lookupKey vh addr).getD []).take
              (((lookupKey vh addr).getD []).length / 2)))))
    ∧ (∀ (ap : AnalyzerParams) (wl : String → Bool)
        (vh : List (String × List VolumeSample)) (now : ℚ) (stubs : AnalyzerStubs)
        (info : TokenInfo),
      stubs.token_info = some info →
      (analyze_market_conditions ap.min_volume
          (update_volume_history ap.volume_window now vh info) info).favorable = false →
      analyze_transaction_intent ap wl vh now stubs = none)
    ∧ default_analyzer_params.min_volume = 1000 := by
  refine ⟨?_, ?_, rfl⟩
  · intro minVol vh info addr rest haddr
    unfold analyze_market_conditions
    rw [haddr]
    simp only [Bool.and_eq_true, decide_eq_true_eq, is_volume_increasing_iff]
  · intro ap wl vh now stubs info hinfo hma
    unfold analyze_transaction_intent
    rw [hinfo]
    split_ifs <;> simp_all

/-- Witness for C6's amended theorem: a two-sample history (600 then 900)
totalling 1500 with a rising second half is favorable. -/
theorem c6_market_conditions_amended_witness :
    (analyze_market_conditions 1000
        [("tok", [{ timestamp := 0, volume := 600 }, { timestamp := 10, volume := 900 }])]
        { addresses := ["tok"], amounts := [], volume_usd := 0 }).favorable = true :=
  (c6_market_conditions_amended.1 1000
      [("tok", [{ timestamp := 0, volume := 600 }, { timestamp := 10, volume := 900 }])]
      { addresses := ["tok"], amounts := [], volume_usd := 0 }
      "tok" [] rfl).mpr
    (by norm_num [calculate_recent_volume, sum_volumes, lookupKey])

/-! ## C7 -/

theorem max_by_score_mem (x : String × ℚ) (xs : List (String × ℚ)) :
    max_by_score x xs ∈ x :: xs := by
  induction xs generalizing x with
  | nil => simp [max_by_score]
  | cons y ys ih =>
    unfold max_by_score
    simp only [List.foldl_cons]
    by_cases hy : y.2 > x.2
    · rw [if_pos hy]
      have := ih y
      unfold max_by_score at this
      rcases List.mem_cons.mp this with h | h
      · rw [h]; simp
      · simp [List.mem_cons, h]
    · rw [if_neg hy]
      have := ih x
      unfold max_by_score at this
      rcases List.mem_cons.mp this with h | h
      · rw [h]; simp
      · simp [List.mem_cons, h]

theorem max_by_score_ge (x : String × ℚ) (xs : List (String × ℚ)) :
    ∀ y ∈ x :: xs, y.2 ≤ (max_by_score x xs).2 := by
  induction xs generalizing x with
  | nil =>
    intro y hy
    rcases List.mem_cons.mp hy with h | h
    · rw [h]; simp [max_by_score]
    · simp at h
  | cons z zs ih =>
    intro y hy
    unfold max_by_score
    simp only [List.foldl_cons]
    by_cases hz : z.2 > x.2
    · rw [if_pos hz]
      have hge := ih z
      unfold max_by_score at hge
      rcases List.mem_cons.mp hy with h | h
      · rw [h]
        exact le_trans (le_of_lt hz) (hge z (List.mem_cons_self _ _))
      · rcases List.mem_cons.mp h with h2 | h2
        · rw [h2]; exact hge z (List.mem_cons_self _ _)
        · exact hge y (List.mem_cons.mpr (Or.inr h2))
    · rw [if_neg hz]
      have hge := ih x
      unfold max_by_score at hge
      rcases List.mem_cons.mp hy with h | h
      · rw [h]; exact hge x (List.mem_cons_self _ _)
      · rcases List.mem_cons.mp h with h2 | h2
        · rw [h2]
          exact le_trans (not_lt.mp hz) (hge x (List.mem_cons_self _ _))
        · exact hge y (List.mem_cons.mpr (Or.inr h2))

theorem max_by_score_map_eq (env : ScoringEnv) (n : String) (ns : List String) :
    (max_by_score (n, score_strategy env n)
        (ns.map (fun t => (t, score_strategy env t)))).2 =
      score_strategy env (max_by_score (n, score_strategy env n)
        (ns.map (fun t => (t, score_strategy env t)))).1 := by
  have hmem := max_by_score_mem (n, score_strategy env n)
    (ns.map (fun t => (t, score_strategy env t)))
  rcases List.mem_cons.mp hmem with h | h
  · rw [h]
  · rcases List.mem_map.mp h with ⟨t, -, ht⟩
    rw [← ht]

theorem max_by_score_fst_mem (env : ScoringEnv) (n : String) (ns : List String) :
    (max_by_score (n, score_strategy env n)
        (ns.map (fun t => (t, score_strategy env t)))).1 ∈ n :: ns := by
  have hmem := max_by_score_mem (n, score_strategy env n)
    (ns.map (fun t => (t, score_strategy env t)))
  rcases List.mem_cons.mp hmem with h | h
  · rw [h]; exact List.mem_cons_self _ _
  · rcases List.mem_map.mp h with ⟨t, ht, hteq⟩
    rw [← hteq]
    exact List.mem_cons.mpr (Or.inr ht)

theorem max_by_score_ge_all (env : ScoringEnv) (n : String) (ns : List String) :
    ∀ t ∈ n :: ns, score_strategy env t ≤
      (max_by_score (n, score_strategy env n)
        (ns.map (fun t => (t, score_strategy env t)))).2 := by
  intro t ht
  have hge := max_by_score_ge (n, score_strategy env n)
    (ns.map (fun t => (t, score_strategy env t)))
  rcases List.mem_cons.mp ht with h | h
  · have := hge (t, score_strategy env t) (by rw [h]; exact List.mem_cons_self _ _)
    exact this
  · exact hge (t, score_strategy env t)
      (List.mem_cons.mpr (Or.inr (List.mem_map.mpr ⟨t, h, rfl⟩)))

/-- C7: the strategy score is the fixed 0.3/0.3/0.4-weighted sum of the
historical, market-fit and opportunity-fit sub-scores; `select_best`
returns `none` when no strategies are registered or when no registered
strategy scores strictly above 0, and any returned strategy is a
registered one of maximal score, with score strictly above 0. -/
theorem c7_strategy_scoring :
    (∀ (env : ScoringEnv) (name : String),
      score_strategy env name =
        (3/10) * env.historical name + (3/10) * env.market_fit name +
          (4/10) * env.opportunity_fit name)
    ∧ (∀ env : ScoringEnv, select_best_strategy env [] = none)
    ∧ (∀ (env : ScoringEnv) (strategies : List String) (s : String),
      select_best_strategy env strategies = some s →
      s ∈ strategies ∧ 0 < score_strategy env s ∧
        ∀ t ∈ strategies, score_strategy env t ≤ score_strategy env s)
    ∧ (∀ (env : ScoringEnv) (strategies : List String),
      select_best_strategy env strategies = none ↔
        (strategies = [] ∨ ∀ t ∈ strategies, score_strategy env t ≤ 0)) := by
  refine ⟨?_, ?_, ?_, ?_⟩
  · intro env name
    unfold score_strategy
    ring
  · intro env
    rfl
  · intro env strategies s hsel
    cases strategies with
    | nil => simp [select_best_strategy] at hsel
    | cons n ns =>
      unfold select_best_strategy at hsel
      simp only [List.map_cons] at hsel
      by_cases hpos :
          (max_by_score (n, score_strategy env n)
            (ns.map (fun t => (t, score_strategy env t)))).2 > 0
      · rw [if_pos hpos] at hsel
        have hs := Option.some.inj hsel
        have hval := max_by_score_map_eq env n ns
        have hfst := max_by_score_fst_mem env n ns
        have hall := max_by_score_ge_all env n ns
        rw [hs] at hval hfst
        refine ⟨hfst, ?_, ?_⟩
        · rw [hval] at hpos
          exact hpos
        · intro t ht
          have := hall t ht
          rw [hval] at this
          exact this
      · rw [if_neg hpos] at hsel
        cases hsel
  · intro env strategies
    cases strategies with
    | nil => simp [select_best_strategy]
    | cons n ns =>
      unfold select_best_strategy
      simp only [List.map_cons]
      have hval := max_by_score_map_eq env n ns
      have hfst := max_by_score_fst_mem env n ns
      have hall := max_by_score_ge_all env n ns
      by_cases hpos :
          (max_by_score (n, score_strategy env n)
            (ns.map (fun t => (t, score_strategy env t)))).2 > 0
      · rw [if_pos hpos]
        simp only [reduceCtorEq, false_iff, not_or]
        refine ⟨by simp, ?_⟩
        intro hzero
        have hle := hzero _ hfst
        rw [← hval] at hle
        exact absurd hpos (not_lt.mpr hle)
      · rw [if_neg hpos]
        simp only [true_iff]
        right
        intro t ht
        exact le_trans (hall t ht) (not_lt.mp hpos)

/-- Witness for C7: with constant unit sub-scores both registered
strategies score 1, the first one is selected, and the theorem yields its
membership, positivity and maximality. -/
theorem c7_strategy_scoring_witness :
    "sandwich" ∈ ["sandwich", "arbitrage"]
    ∧ 0 < score_strategy
        { historical := fun _ => 1, market_fit := fun _ => 1, opportunity_fit := fun _ => 1 }
        "sandwich"
    ∧ ∀ t ∈ ["sandwich", "arbitrage"],
        score_strategy
          { historical := fun _ => 1, market_fit := fun _ => 1, opportunity_fit := fun _ => 1 }
          t ≤
        score_strategy
          { historical := fun _ => 1, market_fit := fun _ => 1, opportunity_fit := fun _ => 1 }
          "sandwich" :=
  c7_strategy_scoring.2.2.1
    { historical := fun _ => 1, market_fit := fun _ => 1, opportunity_fit := fun _ => 1 }
    ["sandwich", "arbitrage"] "sandwich"
    (by norm_num [select_best_strategy, max_by_score, score_strategy])

/-! ## C8 -/

/-- C8: execution is approved iff every one of the four safety predicates
returns a successful `true`; any erroring predicate, in whichever
position, denies execution (fail-closed). -/
theorem c8_fail_closed_safety :
    (∀ c1 c2 c3 c4 : Except String Bool,
      check_execution_safety c1 c2 c3 c4 = true ↔
        (c1 = .ok true ∧ c2 = .ok true ∧ c3 = .ok true ∧ c4 = .ok true))
    ∧ (∀ (e : String) (c2 c3 c4 : Except String Bool),
        check_execution_safety (.error e) c2 c3 c4 = false)
    ∧ (∀ (e : String) (c1 c3 c4 : Except String Bool),
        check_execution_safety c1 (.error e) c3 c4 = false)
    ∧ (∀ (e : String) (c1 c2 c4 : Except String Bool),
        check_execution_safety c1 c2 (.error e) c4 = false)
    ∧ (∀ (e : String) (c1 c2 c3 : Except String Bool),
        check_execution_safety c1 c2 c3 (.error e) = false)
    ∧ (∀ c1 c2 c3 c4 : Except String Bool,
        (c1 = .ok false ∨ c2 = .ok false ∨ c3 = .ok false ∨ c4 = .ok false) →
        check_execution_safety c1 c2 c3 c4 = false) := by
  refine ⟨?_, ?_, ?_, ?_, ?_, ?_⟩
  · intro c1 c2 c3 c4
    cases c1 <;> cases c2 <;> cases c3 <;> cases c4 <;>
      simp [check_execution_safety, Bool.and_eq_true, and_assoc]
  · intro e c2 c3 c4
    cases c2 <;> cases c3 <;> cases c4 <;> rfl
  · intro e c1 c3 c4
    cases c1 <;> cases c3 <;> cases c4 <;> rfl
  · intro e c1 c2 c4
    cases c1 <;> cases c2 <;> cases c4 <;> rfl
  · intro e c1 c2 c3
    cases c1 <;> cases c2 <;> cases c3 <;> rfl
  · intro c1 c2 c3 c4 h
    cases c1 <;> cases c2 <;> cases c3 <;> cases c4 <;>
      rcases h with h | h | h | h <;> simp_all [check_execution_safety]

/-- Witness for C8: a predicate reporting `false` in the third position
denies execution. -/
theorem c8_fail_closed_safety_witness :
    check_execution_safety (.ok true) (.ok true) (.ok false) (.ok true) = false :=
  c8_fail_closed_safety.2.2.2.2.2 (.ok true) (.ok true) (.ok false) (.ok true)
    (Or.inr (Or.inr (Or.inl rfl)))

/-! ## C9 -/

theorem load_save_token (t : TokenConfig) : load_token (save_token t) = some t := rfl

theorem load_save_dex_info (d : DexInfo) : load_dex_info (save_dex_info d) = some d := rfl

theorem load_save_dex_config (d : DexConfig) :
    load_dex_config (save_dex_config d) = some d := rfl

theorem load_entries_save_entries {α : Type} (f : α → Json) (g : Json → Option α)
    (h : ∀ x, g (f x) = some x) (l : List (String × α)) :
    load_entries g (save_entries f l) = some l := by
  induction l with
  | nil => rfl
  | cons kv rest ih =>
    simp only [save_entries, List.map_cons] at ih ⊢
    simp only [load_entries, h kv.2, ih]

theorem load_save_pair (p : PairConfig) : load_pair (save_pair p) = some p := by
  have h := load_entries_save_entries save_dex_config load_dex_config load_save_dex_config
    p.dexes
  simp [load_pair, save_pair, jLookup, h]

theorem load_save_config (st : WhitelistState) :
    load_config (save_config st) = some st := by
  have ht := load_entries_save_entries save_token load_token load_save_token st.tokens
  have hd := load_entries_save_entries save_dex_info load_dex_info load_save_dex_info st.dexes
  have hp := load_entries_save_entries save_pair load_pair load_save_pair st.pairs
  simp [load_config, save_config, jLookup, ht, hd, hp]

/-- C9: saving any whitelist configuration — in particular one produced
by `add_token` and `add_pair` calls — and loading it back reproduces an
equivalent configuration: the same token, DEX and pair keys with
identical field values. -/
theorem c9_whitelist_roundtrip :
    (∀ st : WhitelistState, load_config (save_config st) = some st)
    ∧ (∀ (st : WhitelistState) (sym addr name : String) (dec : Int) (ml : ℚ),
        load_config (save_config (add_token st sym addr name dec ml)) =
          some (add_token st sym addr name dec ml))
    ∧ (∀ (st : WhitelistState) (base quote : String) (dcs : List (String × String)),
        (add_pair st base quote dcs).map (fun st2 => load_config (save_config st2)) =
          (add_pair st base quote dcs).map (fun st2 => some st2)) := by
  refine ⟨load_save_config, ?_, ?_⟩
  · intro st sym addr name dec ml
    exact load_save_config _
  · intro st base quote dcs
    cases h : add_pair st base quote dcs with
    | error e => rfl
    | ok st2 => simp [Except.map, load_save_config]

end MevBot
